import Mathlib

/-!
Verification of the IMC-PROSPERITY-2025 trading engines.

Shallow embedding of the three per-tick strategy engines
(`ROUND-1/simple_mean_reversion.py`, `ROUND-2/premium_narrowdown.py`,
`ROUND-3/short_itm.py`).  Conventions used throughout:

* Python `float` arithmetic is idealised as exact rational arithmetic (`ℚ`);
  book prices and volumes are integers (`ℤ`), positions are integers.
* Python `dict`s are modelled as association lists (`List (String × α)` or
  `List (ℤ × ℤ)` for order books); key lookup finds the first occurrence,
  assignment overwrites in place, `dict.update` merges key-by-key.
* `math`/`statistics` square roots (inside `statistics.stdev`) are modelled by
  an abstract function `fsqrt : ℚ → ℚ`; IEEE `sqrt` maps representable
  rationals to representable rationals, is zero exactly at zero and positive on
  positives, which is the only property the code relies on.  Python's
  `statistics` module computes the radicand with exact `Fraction` arithmetic,
  so the radicand itself is exact in `ℚ`.
* The opaque JSON blob that crosses tick boundaries is modelled by `Blob α`:
  `empty` (falsy string), `malformed` (a string on which `json.loads` raises),
  and `valid payload` (a string decoding to a well-shaped `α`).  `json.dumps`
  of a well-shaped record always yields a `valid` blob and
  `loads (dumps x) = x` for the record shapes used here.
-/

namespace Prosperity

/-- Order emitted by the engine: `Order(product, price, quantity)`;
positive quantity buys, negative sells (as in `datamodel.Order`). -/
structure Order where
  symbol : String
  price : ℤ
  quantity : ℤ
deriving DecidableEq, Repr

/-- Order-book snapshot for one product (`datamodel.OrderDepth`):
bid price → positive buy volume, ask price → negative sell volume,
each side an association list standing for a Python dict. -/
structure OrderDepth where
  buy_orders : List (ℤ × ℤ)
  sell_orders : List (ℤ × ℤ)
deriving DecidableEq, Repr

/-- First-occurrence lookup in an association list (Python `d[k]` / `d.get(k)`). -/
def lookupKey {α : Type} (k : String) : List (String × α) → Option α
  | [] => none
  | (k', v) :: rest => if k' = k then some v else lookupKey k rest

/-- Python dict assignment `d[k] = v`: overwrite the first occurrence in place,
or append a fresh key at the end. -/
def setKey {α : Type} (k : String) (v : α) : List (String × α) → List (String × α)
  | [] => [(k, v)]
  | (k', v') :: rest => if k' = k then (k, v) :: rest else (k', v') :: setKey k v rest

/-- Python `base.update(upd)`: keys of `base` keep their order with values
overwritten by `upd` where present; keys only in `upd` are appended in
`upd` order. -/
def dictUpdate {α : Type} (base upd : List (String × α)) : List (String × α) :=
  base.map (fun kv => (kv.1, (lookupKey kv.1 upd).getD kv.2)) ++
    upd.filter (fun kv => (lookupKey kv.1 base).isNone)

/-- Python `max(d.keys())` over a book side (callers guard non-emptiness). -/
def maxKey (l : List (ℤ × ℤ)) : ℤ := ((l.map Prod.fst).max?).getD 0

/-- Python `min(d.keys())` over a book side (callers guard non-emptiness). -/
def minKey (l : List (ℤ × ℤ)) : ℤ := ((l.map Prod.fst).min?).getD 0

/-- Python `sorted(d.keys())` lifted to price-volume pairs: sort a book side
ascending by price (dict keys are unique, so pair sorting agrees with key
sorting). -/
def sortAsc (l : List (ℤ × ℤ)) : List (ℤ × ℤ) :=
  l.insertionSort (fun a b => a.1 ≤ b.1)

/-- Python `sorted(d.keys(), reverse=True)` lifted to price-volume pairs. -/
def sortDesc (l : List (ℤ × ℤ)) : List (ℤ × ℤ) :=
  l.insertionSort (fun a b => b.1 ≤ a.1)

/-- Arithmetic mean, `statistics.mean` / `sum(xs) / len(xs)` (callers guard
non-emptiness). -/
def listMean (l : List ℚ) : ℚ := l.sum / l.length

/-- Radicand of `statistics.stdev`: sample variance
`Σ (x − mean)² / (n − 1)` (callers guard `n > 1`). -/
def sampleVariance (l : List ℚ) : ℚ :=
  ((l.map (fun x => (x - listMean l) ^ 2)).sum) / ((l.length : ℚ) - 1)

/-- Python `statistics.median`: middle element of the sorted list for odd
length, mean of the two middle elements for even length. -/
def listMedian (l : List ℚ) : ℚ :=
  let s := l.insertionSort (fun a b => a ≤ b)
  if l.length % 2 = 1 then s.getD (l.length / 2) 0
  else (s.getD (l.length / 2 - 1) 0 + s.getD (l.length / 2) 0) / 2

/-- Python `int(x)` on a float: truncation toward zero. -/
def pyInt (q : ℚ) : ℤ := if 0 ≤ q then ⌊q⌋ else ⌈q⌉

/-- Model of the raw `traderData` string crossing tick boundaries:
`empty` is a falsy string, `malformed` is a non-empty string on which
`json.loads` raises, `valid d` is a string decoding to the well-shaped
payload `d`. -/
inductive Blob (α : Type) where
  | empty
  | malformed
  | valid (payload : α)
deriving DecidableEq, Repr

/-- Result of `json.loads` on a raw blob: decode errors become `Except.error`
(an exception unless the call site wraps it in `try`). -/
def jsonLoads {α : Type} : Blob α → Except Unit α
  | Blob.empty => Except.error ()
  | Blob.malformed => Except.error ()
  | Blob.valid d => Except.ok d

/-- ROUND-1 price history blob payload: the JSON dict product → mid-price
list held in `traderData`. -/
abbrev PriceHistory := List (String × List ℚ)

/-- ROUND-1 state restoration, `simple_mean_reversion.py` lines 13-16:
`price_history = json.loads(state.traderData)` when `traderData` is truthy,
`{}` otherwise.  There is no `try`/`except`, so a decode failure on a
malformed non-empty blob propagates to the caller (`Except.error`). -/
def round1Restore : Blob PriceHistory → Except Unit PriceHistory
  | Blob.empty => Except.ok []
  | b => jsonLoads b

/-- ROUND-3 persisted record, `short_itm.py` lines 48-55: the only fields
serialized into `traderData`.  The z-score rolling window
(`pb_croissant_history`) and the adaptive-buffer parameters
(`pb_dynamic_params`) are plain instance attributes and are NOT part of
this record. -/
structure TraderData where
  last_timestamp : ℤ
  price_history : List (String × List ℚ)
  spread_history : List (String × List ℚ)
deriving DecidableEq, Repr

/-- ROUND-3 initial `self.trader_data` (`short_itm.py` lines 48-55). -/
def r3InitTD : TraderData :=
  { last_timestamp := 0
    price_history := []
    spread_history := [("PICNIC_BASKET1", []), ("PICNIC_BASKET2", [])] }

/-- Field-by-field merge of a decoded blob into the in-memory record
(`short_itm.py` lines 64-69): dict-valued fields (`price_history`,
`spread_history`) are merged via `dict.update`, scalar fields
(`last_timestamp`) are replaced wholesale. -/
def mergeTD (cur loaded : TraderData) : TraderData :=
  { last_timestamp := loaded.last_timestamp
    price_history := dictUpdate cur.price_history loaded.price_history
    spread_history := dictUpdate cur.spread_history loaded.spread_history }

/-- ROUND-3 state restoration, `short_itm.py` lines 61-71: skip falsy blobs,
decode inside `try`, merge on success, `pass` (keep `cur` unchanged) on any
exception.  Total: no error ever escapes. -/
def round3Restore (cur : TraderData) : Blob TraderData → TraderData
  | Blob.empty => cur
  | b =>
    match jsonLoads b with
    | Except.ok d => mergeTD cur d
    | Except.error _ => cur

/-- ROUND-3 `json.dumps(self.trader_data)` (`short_itm.py` line 89): dumping
a well-shaped record always yields a decodable blob, and `loads ∘ dumps` is
the identity on these record shapes. -/
def serializeTD (td : TraderData) : Blob TraderData := Blob.valid td

/-- Adaptive buffer parameters for one composite product
(`premium_narrowdown.py` lines 37-50 / `short_itm.py` lines 33-46). -/
structure DynParams where
  buffer_multiplier : ℚ
  min_buffer : ℚ
  max_buffer : ℚ
  current_buffer : ℚ
deriving DecidableEq, Repr

/-- ROUND-2 persisted record, `premium_narrowdown.py` lines 27-35: the only
fields serialized into `traderData`.  The z-score rolling window
(`croissant_history`) and `dynamic_params` are instance attributes outside
this record. -/
structure TD2 where
  spread_history : List (String × List ℚ)
  last_timestamp : ℤ
  open_positions : List (String × ℤ)
  price_history : List (String × List ℚ)
deriving DecidableEq, Repr

/-- ROUND-2 initial `self.trader_data` (`premium_narrowdown.py` lines 27-35). -/
def r2InitTD : TD2 :=
  { spread_history := [("PICNIC_BASKET1", []), ("PICNIC_BASKET2", [])]
    last_timestamp := 0
    open_positions := []
    price_history := [] }

/-- ROUND-2 merge of a decoded blob (`premium_narrowdown.py` lines 120-126):
dict-valued fields merged via `dict.update`, scalars replaced. -/
def mergeTD2 (cur loaded : TD2) : TD2 :=
  { spread_history := dictUpdate cur.spread_history loaded.spread_history
    last_timestamp := loaded.last_timestamp
    open_positions := dictUpdate cur.open_positions loaded.open_positions
    price_history := dictUpdate cur.price_history loaded.price_history }

/-- ROUND-2 state restoration, `premium_narrowdown.py` lines 118-128: same
guarded `try`/`except`/`pass` shape as ROUND-3; total. -/
def round2Restore (cur : TD2) : Blob TD2 → TD2
  | Blob.empty => cur
  | b =>
    match jsonLoads b with
    | Except.ok d => mergeTD2 cur d
    | Except.error _ => cur

/-- ROUND-3 whole engine-instance state (`short_itm.py` `__init__`): the
voucher-strategy fields, the picnic-basket fields, and the persisted record. -/
structure R3State where
  vr_price : ℚ
  vr_last_prices : List ℚ
  pb_croissant_history : List ℚ
  pb_dynamic_params : List (String × DynParams)
  trader_data : TraderData
deriving DecidableEq, Repr

/-- ROUND-3 fresh-engine state (`short_itm.py` lines 7-55). -/
def r3Init : R3State :=
  { vr_price := 10500
    vr_last_prices := []
    pb_croissant_history := []
    pb_dynamic_params :=
      [("PICNIC_BASKET1",
        { buffer_multiplier := 22/10, min_buffer := 2, max_buffer := 10
          current_buffer := 3 }),
       ("PICNIC_BASKET2",
        { buffer_multiplier := 2, min_buffer := 3/2, max_buffer := 8
          current_buffer := 2 })]
    trader_data := r3InitTD }

/-- ROUND-2 whole engine-instance state (`premium_narrowdown.py` `__init__`). -/
structure R2State where
  croissant_history : List ℚ
  trader_data : TD2
  dynamic_params : List (String × DynParams)
deriving DecidableEq, Repr

/-- ROUND-2 fresh-engine state (`premium_narrowdown.py` lines 20-53). -/
def r2Init : R2State :=
  { croissant_history := []
    trader_data := r2InitTD
    dynamic_params :=
      [("PICNIC_BASKET1",
        { buffer_multiplier := 22/10, min_buffer := 2, max_buffer := 10
          current_buffer := 3 }),
       ("PICNIC_BASKET2",
        { buffer_multiplier := 2, min_buffer := 3/2, max_buffer := 8
          current_buffer := 2 })]}

/-- One iteration of the buy loop (`simple_mean_reversion.py` lines 59-64,
identical in `premium_narrowdown.py` lines 162-167 and `short_itm.py` lines
147-152): when the ask level is priced strictly below fair value and the
running position is below the limit, buy `min(-ask_volume, L - pos)` at the
level's price. -/
def buyLoopStep (product : String) (fair : ℚ) (L : ℤ)
    (acc : List Order × ℤ) (lvl : ℤ × ℤ) : List Order × ℤ :=
  if (lvl.1 : ℚ) < fair ∧ acc.2 < L then
    let volume := min (-lvl.2) (L - acc.2)
    (acc.1 ++ [{ symbol := product, price := lvl.1, quantity := volume }],
     acc.2 + volume)
  else acc

/-- One iteration of the sell loop (`simple_mean_reversion.py` lines 67-72,
identical in the other two files): when the bid level is priced strictly
above fair value and the running position is above `-L`, sell
`min(bid_volume, pos + L)` at the level's price. -/
def sellLoopStep (product : String) (fair : ℚ) (L : ℤ)
    (acc : List Order × ℤ) (lvl : ℤ × ℤ) : List Order × ℤ :=
  if fair < (lvl.1 : ℚ) ∧ -L < acc.2 then
    let volume := min lvl.2 (acc.2 + L)
    (acc.1 ++ [{ symbol := product, price := lvl.1, quantity := -volume }],
     acc.2 - volume)
  else acc

/-- Book-walk order generator shared by all three files: the buy loop over
ask levels in ascending price order, then the sell loop over bid levels in
descending price order, threading the one `orders` list and the running
`current_position` through both loops. -/
def bookWalkOrders (product : String) (fair : ℚ) (L : ℤ)
    (depth : OrderDepth) (pos : ℤ) : List Order :=
  ((sortDesc depth.buy_orders).foldl (sellLoopStep product fair L)
    ((sortAsc depth.sell_orders).foldl (buyLoopStep product fair L) ([], pos))).1

/-- Buy side of the Order Generator as the spec states it (spec §4.5): walk
the given ask levels, and for each level priced strictly below `F` while the
running position is below `L`, emit one buy order at that level's price with
quantity `min(|v|, L − p)` (the spec speaks of the magnitude `|v|` of the
negative-signed ask volume). -/
def specBuySide (product : String) (F : ℚ) (L : ℤ) :
    List (ℤ × ℤ) → ℤ → List Order
  | [], _ => []
  | (price, v) :: rest, p =>
    if (price : ℚ) < F ∧ p < L then
      let q := min (v.natAbs : ℤ) (L - p)
      { symbol := product, price := price, quantity := q } ::
        specBuySide product F L rest (p + q)
    else specBuySide product F L rest p

/-- Sell side of the Order Generator as the spec states it (spec §4.5). -/
def specSellSide (product : String) (F : ℚ) (L : ℤ) :
    List (ℤ × ℤ) → ℤ → List Order
  | [], _ => []
  | (price, v) :: rest, p =>
    if F < (price : ℚ) ∧ -L < p then
      let q := min v (p + L)
      { symbol := product, price := price, quantity := -q } ::
        specSellSide product F L rest (p - q)
    else specSellSide product F L rest p

/-- Whole spec-side Order Generator: buy orders from the ascending ask
levels first, then sell orders from the descending bid levels with the
running position carried over from the buy phase. -/
def specBookWalk (product : String) (F : ℚ) (L : ℤ)
    (depth : OrderDepth) (pos : ℤ) : List Order :=
  let buys := specBuySide product F L (sortAsc depth.sell_orders) pos
  buys ++ specSellSide product F L (sortDesc depth.buy_orders)
    (pos + (buys.map Order.quantity).sum)

/-- Positions reached after each order of a list is applied in emission
order to the starting position. -/
def runningPositions (p : ℤ) : List Order → List ℤ
  | [] => []
  | o :: os => (p + o.quantity) :: runningPositions (p + o.quantity) os

/-- Z-score of `current_price` against the rolling window
(`premium_narrowdown.py` `calculate_z_score` lines 61-67, identical to
`short_itm.py` `pb_calculate_z_score` lines 191-197).  `statistics.stdev` is
`fsqrt` applied to the exactly-computed sample variance; the rolling window
size is 100. -/
def calculate_z_score (fsqrt : ℚ → ℚ) (hist : List ℚ) (current_price : ℚ) : ℚ :=
  if hist.length < 100 then 0
  else
    let mean := listMean hist
    let std_dev := if hist.length > 1 then fsqrt (sampleVariance hist) else 0
    if std_dev ≠ 0 then (current_price - mean) / std_dev else 0

/-- Rolling-window update for CROISSANTS (`update_croissant_history` /
`pb_update_croissant_history`): append, then drop the oldest element once
the window exceeds 100. -/
def update_croissant_history (hist : List ℚ) (current_price : ℚ) : List ℚ :=
  let h := hist ++ [current_price]
  if h.length > 100 then h.drop 1 else h

/-- Z-score threshold order generation for CROISSANTS
(`premium_narrowdown.py` lines 183-197, identical in `short_itm.py` lines
167-181): one sell order at best bid when the z-score exceeds the threshold,
one buy order at best ask when it is below the negated threshold, sized
`min(max_trade_size, remaining capacity)` and only emitted when positive. -/
def croissantOrders (product : String) (z threshold : ℚ)
    (best_bid best_ask : ℤ) (max_trade_size L pos : ℤ) : List Order :=
  if z > threshold then
    let sell_volume := min max_trade_size (L + pos)
    if sell_volume > 0 then
      [{ symbol := product, price := best_bid, quantity := -sell_volume }]
    else []
  else if z < -threshold then
    let buy_volume := min max_trade_size (L - pos)
    if buy_volume > 0 then
      [{ symbol := product, price := best_ask, quantity := buy_volume }]
    else []
  else []

/-- Maximum short exposure for vouchers, `short_itm.py` line 9. -/
def vr_max_short : ℤ := 200

/-- Segments of a character list split at every occurrence of `sep`
(Python `str.split(sep)` on the identifier's characters). -/
def splitSegs (sep : Char) : List Char → List (List Char)
  | [] => [[]]
  | c :: rest =>
    let r := splitSegs sep rest
    if c = sep then [] :: r
    else (c :: r.headD []) :: r.tail

/-- Decimal digit accumulation for Python `int(s)`; `none` on the first
non-digit character. -/
def decDigitsAux : List Char → ℕ → Option ℕ
  | [], acc => some acc
  | c :: rest, acc =>
    if '0' ≤ c ∧ c ≤ '9' then decDigitsAux rest (acc * 10 + (c.toNat - '0'.toNat))
    else none

/-- Python `int(s)` on an optionally `-`-signed decimal string; `none`
models the `ValueError` on anything else. -/
def parseIntChars : List Char → Option ℤ
  | [] => none
  | '-' :: rest => if rest = [] then none else (decDigitsAux rest 0).map (fun n => -(n : ℤ))
  | l => (decDigitsAux l 0).map (fun n => (n : ℤ))

/-- Strike extraction `int(product.split('_')[-1])` (`short_itm.py` line
106); `none` when `int()` would raise on a non-numeric last segment. -/
def parseStrike (product : String) : Option ℤ :=
  parseIntChars ((splitSegs '_' product.data).getLastD [])

/-- Intrinsic-value short generator (`short_itm.py` `vr_short_itm_voucher`
lines 104-119): no order unless the underlying fair price exceeds the parsed
strike and the short capacity `vr_max_short + pos` is positive; otherwise one
sell order of `min(10, capacity)` units priced at `int((U − K) * 0.95)`.
`none` models the `int()` exception on an unparsable identifier. -/
def vr_short_itm_voucher (product : String) (vr_price : ℚ) (pos : ℤ) :
    Option (List Order) :=
  match parseStrike product with
  | none => none
  | some strike =>
    if vr_price ≤ (strike : ℚ) then some []
    else
      let short_capacity := vr_max_short + pos
      if short_capacity ≤ 0 then some []
      else
        let quantity := min 10 short_capacity
        let intrinsic := vr_price - (strike : ℚ)
        some [{ symbol := product, price := pyInt (intrinsic * (19/20)),
                quantity := -quantity }]

/-- Underlying market-data update (`short_itm.py` `vr_update_market_data`
lines 93-102), as a function of the `VOLCANIC_ROCK` book lookup result:
when both sides are non-empty, set `vr_price` to the mid and append it to
the 20-bounded `vr_last_prices`; otherwise leave both unchanged. -/
def vr_update_market_data (dep : Option OrderDepth) (vr_price : ℚ)
    (vr_last_prices : List ℚ) : ℚ × List ℚ :=
  match dep with
  | none => (vr_price, vr_last_prices)
  | some d =>
    if d.buy_orders ≠ [] ∧ d.sell_orders ≠ [] then
      let p : ℚ := ((maxKey d.buy_orders : ℚ) + (minKey d.sell_orders : ℚ)) / 2
      let lps := vr_last_prices ++ [p]
      (p, if lps.length > 20 then lps.drop 1 else lps)
    else (vr_price, vr_last_prices)

/-- Bid-side VWAP exactly as `calculate_fair_value` computes it
(`premium_narrowdown.py` line 107): `sum(p*v) / sum(v)` over the raw signed
bid volumes. -/
def bidVWAP (side : List (ℤ × ℤ)) : ℚ :=
  ((side.map (fun pv => (pv.1 : ℚ) * (pv.2 : ℚ))).sum) /
    ((side.map (fun pv => (pv.2 : ℚ))).sum)

/-- Ask-side VWAP exactly as `calculate_fair_value` computes it
(`premium_narrowdown.py` line 108): `sum(p*|v|) / sum(|v|)`. -/
def askVWAP (side : List (ℤ × ℤ)) : ℚ :=
  ((side.map (fun pv => (pv.1 : ℚ) * |(pv.2 : ℚ)|)).sum) /
    ((side.map (fun pv => |(pv.2 : ℚ)|)).sum)

/-- One-sided VWAP as the spec's glossary defines it: volume-weighted average
price over all levels of one side, weights being volume magnitudes. -/
def sideVWAP (side : List (ℤ × ℤ)) : ℚ :=
  ((side.map (fun pv => (pv.1 : ℚ) * |(pv.2 : ℚ)|)).sum) /
    ((side.map (fun pv => |(pv.2 : ℚ)|)).sum)

/-- Composite fair value (`premium_narrowdown.py` `calculate_fair_value`
lines 100-110): iterate the component list accumulating
`total += qty * (bid_vwap + ask_vwap)/2`; return `None` as soon as a
component's book is missing or one-sided. -/
def calculate_fair_value (depths : List (String × OrderDepth)) (total : ℚ) :
    List (String × ℤ) → Option ℚ
  | [] => some total
  | (comp, qty) :: rest =>
    match lookupKey comp depths with
    | none => none
    | some depth =>
      if depth.buy_orders = [] ∨ depth.sell_orders = [] then none
      else
        calculate_fair_value depths
          (total + (qty : ℚ) * (bidVWAP depth.buy_orders +
            askVWAP depth.sell_orders) / 2) rest

/-- Composite fair value as the spec formula states it:
`Σ qᵢ * (bid_vwapᵢ + ask_vwapᵢ) / 2` with VWAPs per the glossary. -/
def specCompositeFV (depths : List (String × OrderDepth))
    (comps : List (String × ℤ)) : ℚ :=
  (comps.map (fun cq =>
    let depth := (lookupKey cq.1 depths).getD { buy_orders := [], sell_orders := [] }
    (cq.2 : ℚ) * (sideVWAP depth.buy_orders + sideVWAP depth.sell_orders) / 2)).sum

/-- Adaptive-buffer maintenance (`premium_narrowdown.py`
`update_dynamic_buffers` lines 84-98): append the spread to the product's
spread history, drop the oldest element past 20, and once the history holds
at least 5 observations clamp `median * buffer_multiplier` into
`[min_buffer, max_buffer]` as the new `current_buffer`.  `none` models the
`KeyError` on a product absent from the history or parameter dicts. -/
def update_dynamic_buffers (product : String) (current_spread : ℚ)
    (s : R2State) : Option R2State :=
  match lookupKey product s.trader_data.spread_history with
  | none => none
  | some history =>
    let h1 := history ++ [current_spread]
    let h2 := if h1.length > 20 then h1.drop 1 else h1
    let td := { s.trader_data with
                spread_history := setKey product h2 s.trader_data.spread_history }
    if h2.length ≥ 5 then
      match lookupKey product s.dynamic_params with
      | none => none
      | some params =>
        let newBuffer :=
          max params.min_buffer (min params.max_buffer
            (listMedian h2 * params.buffer_multiplier))
        some { s with
               trader_data := td
               dynamic_params := setKey product
                 { params with current_buffer := newBuffer } s.dynamic_params }
    else some { s with trader_data := td }

/-- Position-limit table shared by ROUND-2 (module-level `POSITION_LIMITS`)
and ROUND-3 (`self.pb_position_limits`). -/
def pbPositionLimits : List (String × ℤ) :=
  [("RAINFOREST_RESIN", 50), ("KELP", 50), ("CROISSANTS", 250),
   ("PICNIC_BASKET1", 60), ("PICNIC_BASKET2", 100)]

/-- ROUND-1 position-limit table (`simple_mean_reversion.py` lines 18-22). -/
def r1PositionLimits : List (String × ℤ) :=
  [("RAINFOREST_RESIN", 50), ("KELP", 50), ("SQUID_INK", 50)]

/-- ROUND-1 static fallback mid-price when the book is one-sided
(`simple_mean_reversion.py` line 47). -/
def r1Fallback (product : String) : ℚ :=
  if product = "RAINFOREST_RESIN" then 10000 else 1000

/-- Body of ROUND-1's per-product loop (`simple_mean_reversion.py` lines
25-74), for one product with its already-looked-up position limit `L` and
the product's entry of the price-history dict (`[]` standing for an absent
key): returns the orders placed into `result[product]` and the product's
updated history entry.  On a two-sided book the mid-price is pushed into the
5-bounded history and the fair price is its mean; on a one-sided book the
history is left untouched and the static fallback seeds the fair price; the
book walk then runs on whatever levels each side has (SQUID_INK is tracked
but never traded). -/
def round1_product (product : String) (L : ℤ) (depth : OrderDepth)
    (pos : ℤ) (hist : List ℚ) : List Order × List ℚ :=
  let bookTwoSided := depth.sell_orders ≠ [] ∧ depth.buy_orders ≠ []
  let hist' :=
    if bookTwoSided then
      let mid : ℚ := ((minKey depth.sell_orders : ℚ) + (maxKey depth.buy_orders : ℚ)) / 2
      let h := hist ++ [mid]
      if h.length > 5 then h.drop (h.length - 5) else h
    else hist
  let fair_price :=
    if bookTwoSided then listMean hist'
    else listMean (if hist' = [] then [r1Fallback product] else hist')
  if product = "SQUID_INK" then ([], hist')
  else (bookWalkOrders product fair_price L depth pos, hist')

/-- Entry of a product's price history in the ROUND-2/3 persisted record,
with an absent key read as `[]` (the code initialises absent keys to `[]`
before appending). -/
def getHistory (product : String) (ph : List (String × List ℚ)) : List ℚ :=
  (lookupKey product ph).getD []

/-- Moving-average fair-price update shared by ROUND-2 lines 150-159 and
ROUND-3 lines 138-144: push the mid-price into the 5-bounded history and
average it. -/
def pushMid (hist : List ℚ) (mid : ℚ) : List ℚ :=
  let h := hist ++ [mid]
  if h.length > 5 then h.drop (h.length - 5) else h

/-- ROUND-3 `pb_process_product` (`short_itm.py` lines 122-183): one product
of the picnic-basket strategy.  Returns the order list together with the
updated engine state; `none` models the `KeyError` of an unconfigured
product (never reached from `run`, which guards membership).  A one-sided
book returns `([], s)` before any state is touched. -/
def pb_process_product (fsqrt : ℚ → ℚ) (product : String)
    (depth : OrderDepth) (pos : ℤ) (s : R3State) :
    Option (List Order × R3State) :=
  match lookupKey product pbPositionLimits with
  | none => none
  | some L =>
    if depth.buy_orders = [] ∨ depth.sell_orders = [] then some ([], s)
    else
      let best_bid := maxKey depth.buy_orders
      let best_ask := minKey depth.sell_orders
      let mid : ℚ := ((best_bid : ℚ) + (best_ask : ℚ)) / 2
      if product = "RAINFOREST_RESIN" ∨ product = "KELP" then
        let hist := pushMid (getHistory product s.trader_data.price_history) mid
        let s' := { s with trader_data := { s.trader_data with
          price_history := setKey product hist s.trader_data.price_history } }
        some (bookWalkOrders product (listMean hist) L depth pos, s')
      else if product = "CROISSANTS" then
        let ch := update_croissant_history s.pb_croissant_history mid
        let z := calculate_z_score fsqrt ch mid
        some (croissantOrders product z (3/2) best_bid best_ask 10 L pos,
          { s with pb_croissant_history := ch })
      else some ([], s)

/-- Input of one tick (`datamodel.TradingState` as the engines read it):
timestamp, product → book snapshot, product → signed position, and the raw
persisted blob. -/
structure TradingState (α : Type) where
  timestamp : ℤ
  order_depths : List (String × OrderDepth)
  position : List (String × ℤ)
  traderData : Blob α
deriving Repr

/-- Body of ROUND-2's per-product loop (`premium_narrowdown.py` lines
130-199) for one product of the snapshot, folded over `(result, state)`.
Products without a configured limit are skipped (absent from the result);
a one-sided book contributes an empty order list and no state change; the
stray text on line 150 of the source is read as the comment it was clearly
meant to be. -/
def round2_step (fsqrt : ℚ → ℚ) (st : TradingState TD2)
    (acc : List (String × List Order) × R2State) (product : String) :
    List (String × List Order) × R2State :=
  let result := acc.1
  let s := acc.2
  match lookupKey product st.order_depths with
  | none => acc
  | some depth =>
    match lookupKey product pbPositionLimits with
    | none => acc
    | some L =>
      let pos := (lookupKey product st.position).getD 0
      if depth.buy_orders = [] ∨ depth.sell_orders = [] then
        (result ++ [(product, [])], s)
      else
        let best_bid := maxKey depth.buy_orders
        let best_ask := minKey depth.sell_orders
        let mid : ℚ := ((best_bid : ℚ) + (best_ask : ℚ)) / 2
        if product = "RAINFOREST_RESIN" ∨ product = "KELP" then
          let hist := pushMid (getHistory product s.trader_data.price_history) mid
          let s' := { s with trader_data := { s.trader_data with
            price_history := setKey product hist s.trader_data.price_history } }
          (result ++ [(product, bookWalkOrders product (listMean hist) L depth pos)], s')
        else if product = "CROISSANTS" then
          let ch := update_croissant_history s.croissant_history mid
          let z := calculate_z_score fsqrt ch mid
          (result ++ [(product,
              croissantOrders product z (3/2) best_bid best_ask 10 L pos)],
           { s with croissant_history := ch })
        else (result ++ [(product, [])], s)

/-- ROUND-2 `Trader.run` (`premium_narrowdown.py` lines 112-202): restore
the persisted record from the blob, fold the per-product step over the
products of the snapshot in order, stamp the timestamp, and serialize the
record back out.  Returns (result, conversions, serialized blob, final
engine state). -/
def round2_run (fsqrt : ℚ → ℚ) (st : TradingState TD2) (s0 : R2State) :
    List (String × List Order) × ℤ × Blob TD2 × R2State :=
  let s1 := { s0 with trader_data := round2Restore s0.trader_data st.traderData }
  let rs := (st.order_depths.map Prod.fst).foldl (round2_step fsqrt st) ([], s1)
  let s3 := { rs.2 with trader_data := { rs.2.trader_data with
    last_timestamp := st.timestamp } }
  (rs.1, 0, Blob.valid s3.trader_data, s3)

/-! Association-list lemmas used to reason about the `dict.update` merge. -/

lemma lookupKey_append_some {α : Type} {k : String} {l₁ : List (String × α)}
    (l₂ : List (String × α)) {v : α} (h : lookupKey k l₁ = some v) :
    lookupKey k (l₁ ++ l₂) = some v := by
  induction l₁ with
  | nil => simp [lookupKey] at h
  | cons kv rest ih =>
    obtain ⟨k', v'⟩ := kv
    by_cases hk : k' = k
    · simp_all [lookupKey]
    · simp_all [lookupKey]

lemma lookupKey_append_none {α : Type} {k : String} {l₁ : List (String × α)}
    (l₂ : List (String × α)) (h : lookupKey k l₁ = none) :
    lookupKey k (l₁ ++ l₂) = lookupKey k l₂ := by
  induction l₁ with
  | nil => simp [lookupKey]
  | cons kv rest ih =>
    obtain ⟨k', v'⟩ := kv
    by_cases hk : k' = k
    · simp_all [lookupKey]
    · simp_all [lookupKey]

lemma lookupKey_mapOverride {α : Type} (k : String)
    (base upd : List (String × α)) :
    lookupKey k (base.map (fun kv => (kv.1, (lookupKey kv.1 upd).getD kv.2))) =
      (lookupKey k base).map (fun v => (lookupKey k upd).getD v) := by
  induction base with
  | nil => simp [lookupKey]
  | cons kv rest ih =>
    obtain ⟨k', v'⟩ := kv
    by_cases hk : k' = k
    · subst hk; simp [lookupKey]
    · simp [lookupKey, hk, ih]

lemma lookupKey_filterNew {α : Type} (k : String)
    (base upd : List (String × α)) (h : lookupKey k base = none) :
    lookupKey k (upd.filter (fun kv => (lookupKey kv.1 base).isNone)) =
      lookupKey k upd := by
  induction upd with
  | nil => simp
  | cons kv rest ih =>
    obtain ⟨k', v'⟩ := kv
    by_cases hk : k' = k
    · subst hk
      simp [List.filter, h, lookupKey]
    · by_cases hkeep : (lookupKey k' base).isNone
      · simp [List.filter, hkeep, lookupKey, hk, ih]
      · simp [List.filter, hkeep, lookupKey, hk, ih]

/-- Key lookup after a Python `dict.update`: keys of the update win, keys
only in the base fall through. -/
lemma lookupKey_dictUpdate {α : Type} (k : String)
    (base upd : List (String × α)) :
    lookupKey k (dictUpdate base upd) =
      match lookupKey k base with
      | some v => some ((lookupKey k upd).getD v)
      | none => lookupKey k upd := by
  unfold dictUpdate
  cases h : lookupKey k base with
  | none =>
    have hmap : lookupKey k
        (base.map (fun kv => (kv.1, (lookupKey kv.1 upd).getD kv.2))) = none := by
      rw [lookupKey_mapOverride, h]; rfl
    rw [lookupKey_append_none _ hmap, lookupKey_filterNew k base upd h]
  | some v =>
    have hmap : lookupKey k
        (base.map (fun kv => (kv.1, (lookupKey kv.1 upd).getD kv.2))) =
        some ((lookupKey k upd).getD v) := by
      rw [lookupKey_mapOverride, h]; rfl
    rw [lookupKey_append_some _ hmap]

/-! Claim C2: state-restoration failure behaviour. -/

/-- C2 counterexample: the ROUND-1 entry point (`simple_mean_reversion.py`
lines 13-16) has no `try`/`except` around `json.loads`, so a malformed
non-empty blob raises to the caller instead of proceeding with the default
state — refuting the claim that restoration never raises for every engine. -/
theorem c2_counterexample :
    round1Restore Blob.malformed = Except.error () := rfl

/-- C2 amended: the ROUND-2 and ROUND-3 entry points never raise during
state restoration — on an empty or undecodable blob they proceed with the
in-memory state unchanged, and every blob yields a well-defined state —
while the ROUND-1 entry point proceeds with its default only on an empty
blob and propagates the decode exception on a malformed one. -/
theorem c2_restore_soft_failure :
    (∀ (cur : TraderData), round3Restore cur Blob.empty = cur ∧
      round3Restore cur Blob.malformed = cur ∧
      ∀ b : Blob TraderData, ∃ s, round3Restore cur b = s) ∧
    (∀ (cur : TD2), round2Restore cur Blob.empty = cur ∧
      round2Restore cur Blob.malformed = cur ∧
      ∀ b : Blob TD2, ∃ s, round2Restore cur b = s) ∧
    round1Restore Blob.empty = Except.ok [] ∧
    round1Restore Blob.malformed = Except.error () := by
  refine ⟨fun cur => ⟨rfl, rfl, fun b => ⟨round3Restore cur b, rfl⟩⟩,
    fun cur => ⟨rfl, rfl, fun b => ⟨round2Restore cur b, rfl⟩⟩, rfl, rfl⟩

/-! Claim C3: state round-trip. -/

/-- C3 counterexample: the z-score rolling window (`pb_croissant_history`)
is an instance attribute, not a field of the serialized `trader_data`
record, so serializing the end-of-tick state of an engine whose window
holds one price and restoring the blob into a fresh engine loses the
window — the restored state is not operationally equivalent in a field the
CROISSANTS strategy reads. -/
theorem c3_counterexample :
    ({ r3Init with
        trader_data :=
          round3Restore r3Init.trader_data
            (serializeTD ({ r3Init with
                pb_croissant_history :=
                  [(5 : ℚ)] } : R3State).trader_data) } : R3State).pb_croissant_history ≠
    ({ r3Init with
        pb_croissant_history := [(5 : ℚ)] } : R3State).pb_croissant_history := by
  decide

/-- C3 amended: the round-trip `restore ∘ serialize` into a fresh ROUND-3
engine is loss-free for exactly the fields the persisted record carries —
every key of `price_history`, every key of `spread_history` (the record
always holds the two basket keys), and `last_timestamp` — while the z-score
rolling window and the adaptive-buffer parameters are instance state outside
the blob and revert to their fresh-engine defaults. -/
theorem c3_blob_fields_roundtrip (td : TraderData)
    (h1 : (lookupKey "PICNIC_BASKET1" td.spread_history).isSome)
    (h2 : (lookupKey "PICNIC_BASKET2" td.spread_history).isSome) :
    (∀ k, lookupKey k (round3Restore r3InitTD (serializeTD td)).price_history =
      lookupKey k td.price_history) ∧
    (∀ k, lookupKey k (round3Restore r3InitTD (serializeTD td)).spread_history =
      lookupKey k td.spread_history) ∧
    (round3Restore r3InitTD (serializeTD td)).last_timestamp = td.last_timestamp ∧
    (∀ s : R3State,
      ({ r3Init with
          trader_data :=
            round3Restore r3Init.trader_data
              (serializeTD s.trader_data) } : R3State).pb_croissant_history =
        r3Init.pb_croissant_history) := by
  have hrestore : round3Restore r3InitTD (serializeTD td) = mergeTD r3InitTD td := rfl
  refine ⟨?_, ?_, ?_, fun s => rfl⟩
  · intro k
    rw [hrestore]
    show lookupKey k (dictUpdate r3InitTD.price_history td.price_history) = _
    rw [lookupKey_dictUpdate]
    rfl
  · intro k
    rw [hrestore]
    show lookupKey k (dictUpdate r3InitTD.spread_history td.spread_history) = _
    rw [lookupKey_dictUpdate]
    by_cases hk1 : k = "PICNIC_BASKET1"
    · subst hk1
      obtain ⟨v, hv⟩ := Option.isSome_iff_exists.mp h1
      simp [r3InitTD, lookupKey, hv]
    · by_cases hk2 : k = "PICNIC_BASKET2"
      · subst hk2
        obtain ⟨v, hv⟩ := Option.isSome_iff_exists.mp h2
        simp [r3InitTD, lookupKey, hv]
      · have hne1 : ¬("PICNIC_BASKET1" = k) := fun h => hk1 h.symm
        have hne2 : ¬("PICNIC_BASKET2" = k) := fun h => hk2 h.symm
        have : lookupKey k r3InitTD.spread_history = none := by
          simp [r3InitTD, lookupKey, hne1, hne2]
        rw [this]
  · rw [hrestore]; rfl

/-- C3 witness: the amended round-trip theorem applied to a concrete
persisted record. -/
theorem c3_blob_fields_roundtrip_witness :
    (lookupKey "PICNIC_BASKET1"
      ({ last_timestamp := 7, price_history := [("KELP", [2, 3])],
         spread_history := [("PICNIC_BASKET1", [4]), ("PICNIC_BASKET2", [])] } :
        TraderData).spread_history).isSome ∧
    lookupKey "KELP" (round3Restore r3InitTD (serializeTD
      { last_timestamp := 7, price_history := [("KELP", [2, 3])],
        spread_history := [("PICNIC_BASKET1", [4]), ("PICNIC_BASKET2", [])] })).price_history =
      some [2, 3] := by
  constructor
  · decide
  · have h := c3_blob_fields_roundtrip
      { last_timestamp := 7, price_history := [("KELP", [2, 3])],
        spread_history := [("PICNIC_BASKET1", [4]), ("PICNIC_BASKET2", [])] }
      (by decide) (by decide)
    rw [h.1 "KELP"]
    decide

/-! Claim C4: behaviour on one-sided or empty books. -/

/-- C4 counterexample: in ROUND-1 a configured product with an empty ask
side does not yield an empty order list — the engine substitutes the static
fallback fair price (1000 for KELP) and still walks the populated bid side:
with one bid level 1050×5 and position 0 it emits a sell of 5 at 1050. -/
theorem c4_counterexample :
    (round1_product "KELP" 50 { buy_orders := [(1050, 5)], sell_orders := [] } 0 []).1 =
      [{ symbol := "KELP", price := 1050, quantity := -5 }] ∧
    (round1_product "KELP" 50 { buy_orders := [(1050, 5)], sell_orders := [] } 0 []).1 ≠
      [] := by
  constructor <;>
    norm_num +decide [round1_product, r1Fallback, listMean, bookWalkOrders, sortAsc,
      sortDesc, buyLoopStep, sellLoopStep, List.insertionSort, List.orderedInsert,
      minKey, maxKey]

/-- C4 amended: for a configured product whose book has an empty bid or ask
side, the ROUND-2 engine emits no orders and the product appears in the
tick's output mapping with an empty order list (with no state change), and
the ROUND-3 picnic-basket processing returns an empty order list with the
state untouched (its `run` then omits the product from the output mapping);
the ROUND-1 engine instead falls back to a static fair price and may still
emit orders against the populated side.  No exception surfaces in any of
the three. -/
theorem c4_one_sided_book (product : String) (depth : OrderDepth)
    (h : depth.buy_orders = [] ∨ depth.sell_orders = []) :
    (∀ (fsqrt : ℚ → ℚ) (st : TradingState TD2)
      (result : List (String × List Order)) (s : R2State),
      lookupKey product st.order_depths = some depth →
      (lookupKey product pbPositionLimits).isSome →
      round2_step fsqrt st (result, s) product = (result ++ [(product, [])], s)) ∧
    (∀ (fsqrt : ℚ → ℚ) (pos : ℤ) (s : R3State),
      (lookupKey product pbPositionLimits).isSome →
      pb_process_product fsqrt product depth pos s = some ([], s)) := by
  constructor
  · intro fsqrt st result s hdep hlim
    obtain ⟨L, hL⟩ := Option.isSome_iff_exists.mp hlim
    simp only [round2_step, hdep, hL]
    simp [h]
  · intro fsqrt pos s hlim
    obtain ⟨L, hL⟩ := Option.isSome_iff_exists.mp hlim
    simp only [pb_process_product, hL]
    simp [h]

/-- C4 witness: the amended one-sided-book theorem applied to KELP with an
empty ask side in both the ROUND-2 step and the ROUND-3 processing. -/
theorem c4_one_sided_book_witness :
    (({ buy_orders := [(1050, 5)], sell_orders := [] } : OrderDepth).buy_orders = [] ∨
      ({ buy_orders := [(1050, 5)], sell_orders := [] } : OrderDepth).sell_orders = []) ∧
    pb_process_product (fun _ => 0) "KELP"
      { buy_orders := [(1050, 5)], sell_orders := [] } 0 r3Init = some ([], r3Init) := by
  refine ⟨Or.inr rfl, ?_⟩
  exact (c4_one_sided_book "KELP"
    { buy_orders := [(1050, 5)], sell_orders := [] } (Or.inr rfl)).2
    (fun _ => 0) 0 r3Init (by decide)

/-! Lemmas relating the imperative book-walk loops to the spec-side
recursions, and position bounds for the walks. -/

instance : IsTotal (ℤ × ℤ) (fun a b : ℤ × ℤ => a.1 ≤ b.1) :=
  ⟨fun a b => le_total a.1 b.1⟩

instance : IsTrans (ℤ × ℤ) (fun a b : ℤ × ℤ => a.1 ≤ b.1) :=
  ⟨fun _ _ _ h h' => le_trans h h'⟩

instance : IsTotal (ℤ × ℤ) (fun a b : ℤ × ℤ => b.1 ≤ a.1) :=
  ⟨fun a b => le_total b.1 a.1⟩

instance : IsTrans (ℤ × ℤ) (fun a b : ℤ × ℤ => b.1 ≤ a.1) :=
  ⟨fun _ _ _ h h' => le_trans h' h⟩

lemma buyLoop_spec (product : String) (F : ℚ) (L : ℤ) (l : List (ℤ × ℤ)) :
    ∀ (acc : List Order) (p : ℤ), (∀ pv ∈ l, pv.2 ≤ 0) →
      l.foldl (buyLoopStep product F L) (acc, p) =
        (acc ++ specBuySide product F L l p,
         p + ((specBuySide product F L l p).map Order.quantity).sum) := by
  induction l with
  | nil => intro acc p _; simp [specBuySide]
  | cons pv rest ih =>
    intro acc p h
    obtain ⟨price, v⟩ := pv
    have hv : v ≤ 0 := h (price, v) (List.mem_cons_self _ _)
    have hrest : ∀ pv ∈ rest, pv.2 ≤ 0 := fun pv hpv => h pv (List.mem_cons_of_mem _ hpv)
    have habs : (v.natAbs : ℤ) = -v := Int.ofNat_natAbs_of_nonpos hv
    by_cases hc : (price : ℚ) < F ∧ p < L
    · simp only [List.foldl_cons, buyLoopStep, if_pos hc, specBuySide, habs]
      rw [ih _ _ hrest]
      simp only [List.append_assoc, List.singleton_append, List.map_cons, List.sum_cons,
        Prod.mk.injEq]
      exact ⟨trivial, by ring⟩
    · simp only [List.foldl_cons, buyLoopStep, if_neg hc, specBuySide]
      exact ih _ _ hrest

lemma sellLoop_spec (product : String) (F : ℚ) (L : ℤ) (l : List (ℤ × ℤ)) :
    ∀ (acc : List Order) (p : ℤ),
      l.foldl (sellLoopStep product F L) (acc, p) =
        (acc ++ specSellSide product F L l p,
         p + ((specSellSide product F L l p).map Order.quantity).sum) := by
  induction l with
  | nil => intro acc p; simp [specSellSide]
  | cons pv rest ih =>
    intro acc p
    obtain ⟨price, v⟩ := pv
    by_cases hc : F < (price : ℚ) ∧ -L < p
    · simp only [List.foldl_cons, sellLoopStep, if_pos hc, specSellSide]
      rw [ih]
      simp only [List.append_assoc, List.singleton_append, List.map_cons, List.sum_cons,
        Prod.mk.injEq]
      exact ⟨trivial, by ring⟩
    · simp only [List.foldl_cons, sellLoopStep, if_neg hc, specSellSide]
      exact ih _ _

/-- The imperative walk equals the spec-side walk when ask volumes follow
the negative-magnitude convention. -/
lemma bookWalk_eq_spec (product : String) (F : ℚ) (L : ℤ) (depth : OrderDepth)
    (pos : ℤ) (hask : ∀ pv ∈ depth.sell_orders, pv.2 ≤ 0) :
    bookWalkOrders product F L depth pos = specBookWalk product F L depth pos := by
  have hask' : ∀ pv ∈ sortAsc depth.sell_orders, pv.2 ≤ 0 := by
    intro pv hpv
    exact hask pv ((List.perm_insertionSort _ _).mem_iff.mp hpv)
  unfold bookWalkOrders specBookWalk
  rw [buyLoop_spec product F L (sortAsc depth.sell_orders) [] pos hask',
    sellLoop_spec]
  simp

lemma specBuySide_filterF (product : String) (F : ℚ) (L : ℤ) (l : List (ℤ × ℤ)) :
    ∀ p, specBuySide product F L
        (l.filter (fun pv => decide (¬((pv.1 : ℚ) = F)))) p =
      specBuySide product F L l p := by
  induction l with
  | nil => intro p; rfl
  | cons pv rest ih =>
    intro p
    obtain ⟨price, v⟩ := pv
    by_cases hF : (price : ℚ) = F
    · have hnotlt : ¬((price : ℚ) < F ∧ p < L) := fun hc =>
        absurd hc.1 (by rw [hF]; exact lt_irrefl F)
      rw [List.filter_cons_of_neg (by simp [hF]), ih p]
      simp only [specBuySide]
      rw [if_neg hnotlt]
    · rw [List.filter_cons_of_pos (by simp [hF])]
      simp only [specBuySide]
      by_cases hc : (price : ℚ) < F ∧ p < L
      · rw [if_pos hc, if_pos hc, ih]
      · rw [if_neg hc, if_neg hc, ih]

lemma specSellSide_filterF (product : String) (F : ℚ) (L : ℤ) (l : List (ℤ × ℤ)) :
    ∀ p, specSellSide product F L
        (l.filter (fun pv => decide (¬((pv.1 : ℚ) = F)))) p =
      specSellSide product F L l p := by
  induction l with
  | nil => intro p; rfl
  | cons pv rest ih =>
    intro p
    obtain ⟨price, v⟩ := pv
    by_cases hF : (price : ℚ) = F
    · have hnotlt : ¬(F < (price : ℚ) ∧ -L < p) := fun hc =>
        absurd hc.1 (by rw [hF]; exact lt_irrefl F)
      rw [List.filter_cons_of_neg (by simp [hF]), ih p]
      simp only [specSellSide]
      rw [if_neg hnotlt]
    · rw [List.filter_cons_of_pos (by simp [hF])]
      simp only [specSellSide]
      by_cases hc : F < (price : ℚ) ∧ -L < p
      · rw [if_pos hc, if_pos hc, ih]
      · rw [if_neg hc, if_neg hc, ih]

lemma runningPositions_append (a : List Order) :
    ∀ (b : List Order) (p : ℤ),
      runningPositions p (a ++ b) =
        runningPositions p a ++
          runningPositions (p + (a.map Order.quantity).sum) b := by
  induction a with
  | nil => intro b p; simp [runningPositions]
  | cons o rest ih =>
    intro b p
    simp only [List.cons_append, runningPositions, List.append_eq, List.map_cons,
      List.sum_cons, ih, add_assoc]

/-- Every position reached during the spec-side buy walk, and the final
position, stays inside `[-L, L]`. -/
lemma specBuySide_bounds (product : String) (F : ℚ) (L : ℤ) (l : List (ℤ × ℤ)) :
    ∀ p, -L ≤ p → p ≤ L →
      (∀ q ∈ runningPositions p (specBuySide product F L l p), -L ≤ q ∧ q ≤ L) ∧
      (-L ≤ p + ((specBuySide product F L l p).map Order.quantity).sum ∧
        p + ((specBuySide product F L l p).map Order.quantity).sum ≤ L) := by
  induction l with
  | nil => intro p h1 h2; simp [specBuySide, runningPositions, h1, h2]
  | cons pv rest ih =>
    intro p h1 h2
    obtain ⟨price, v⟩ := pv
    by_cases hc : (price : ℚ) < F ∧ p < L
    · have hq0 : 0 ≤ min (v.natAbs : ℤ) (L - p) :=
        le_min (Int.ofNat_nonneg _) (by omega)
      have hqle : min (v.natAbs : ℤ) (L - p) ≤ L - p := min_le_right _ _
      have h1' : -L ≤ p + min (v.natAbs : ℤ) (L - p) := by omega
      have h2' : p + min (v.natAbs : ℤ) (L - p) ≤ L := by omega
      obtain ⟨hall, hfin⟩ := ih (p + min (v.natAbs : ℤ) (L - p)) h1' h2'
      simp only [specBuySide, if_pos hc, runningPositions, List.map_cons, List.sum_cons]
      refine ⟨?_, by omega⟩
      intro q hq
      rcases List.mem_cons.mp hq with hq | hq
      · omega
      · exact hall q hq
    · simp only [specBuySide, if_neg hc]
      exact ih p h1 h2

/-- Every position reached during the spec-side sell walk stays inside
`[-L, L]` when bid volumes are non-negative. -/
lemma specSellSide_bounds (product : String) (F : ℚ) (L : ℤ) (l : List (ℤ × ℤ)) :
    ∀ p, (∀ pv ∈ l, 0 ≤ pv.2) → -L ≤ p → p ≤ L →
      ∀ q ∈ runningPositions p (specSellSide product F L l p), -L ≤ q ∧ q ≤ L := by
  induction l with
  | nil => intro p _ h1 h2; simp [specSellSide, runningPositions]
  | cons pv rest ih =>
    intro p hvol h1 h2
    obtain ⟨price, v⟩ := pv
    have hv : 0 ≤ v := hvol (price, v) (List.mem_cons_self _ _)
    have hrest : ∀ pv ∈ rest, 0 ≤ pv.2 := fun pv hpv => hvol pv (List.mem_cons_of_mem _ hpv)
    by_cases hc : F < (price : ℚ) ∧ -L < p
    · have hq0 : 0 ≤ min v (p + L) := le_min hv (by omega)
      have hqle : min v (p + L) ≤ p + L := min_le_right _ _
      have h1' : -L ≤ p - min v (p + L) := by omega
      have h2' : p - min v (p + L) ≤ L := by omega
      have hall := ih (p - min v (p + L)) hrest h1' h2'
      simp only [specSellSide, if_pos hc, runningPositions]
      intro q hq
      rcases List.mem_cons.mp hq with hq | hq
      · omega
      · have : p + -min v (p + L) = p - min v (p + L) := by omega
        rw [this] at hq
        exact hall q hq
    · simp only [specSellSide, if_neg hc]
      exact ih p hrest h1 h2

/-! Claim C5: book-walk order generation. -/

/-- C5: under the book's sign convention for ask volumes, the imperative
book walk emits exactly the order sequence the spec describes — ask levels
in ascending order first, each level strictly below `F` contributing a buy
of `min(|v|, L − p)` at its exact price while `p < L`, then bid levels in
descending order, each level strictly above `F` contributing a sell of
`min(v, p + L)` while `−L < p` — and levels priced exactly at `F` contribute
nothing on either side (filtering them out of either walk leaves the output
unchanged). -/
theorem c5_book_walk (product : String) (F : ℚ) (L : ℤ) (depth : OrderDepth)
    (pos : ℤ) (hask : ∀ pv ∈ depth.sell_orders, pv.2 ≤ 0) :
    bookWalkOrders product F L depth pos = specBookWalk product F L depth pos ∧
    (sortAsc depth.sell_orders).Sorted (fun a b => a.1 ≤ b.1) ∧
    (sortDesc depth.buy_orders).Sorted (fun a b => b.1 ≤ a.1) ∧
    (∀ (l : List (ℤ × ℤ)) (p : ℤ),
      specBuySide product F L (l.filter (fun pv => decide (¬((pv.1 : ℚ) = F)))) p =
        specBuySide product F L l p) ∧
    (∀ (l : List (ℤ × ℤ)) (p : ℤ),
      specSellSide product F L (l.filter (fun pv => decide (¬((pv.1 : ℚ) = F)))) p =
        specSellSide product F L l p) :=
  ⟨bookWalk_eq_spec product F L depth pos hask,
    List.sorted_insertionSort _ _,
    List.sorted_insertionSort _ _,
    specBuySide_filterF product F L,
    specSellSide_filterF product F L⟩

/-- C5 witness: the walk equivalence applied to a concrete two-sided book. -/
theorem c5_book_walk_witness :
    (∀ pv ∈ ({ buy_orders := [(99, 5), (101, 7)],
               sell_orders := [(100, -5), (98, -3)] } : OrderDepth).sell_orders,
      pv.2 ≤ 0) ∧
    bookWalkOrders "KELP" (201/2) 50
        { buy_orders := [(99, 5), (101, 7)], sell_orders := [(100, -5), (98, -3)] } 0 =
      specBookWalk "KELP" (201/2) 50
        { buy_orders := [(99, 5), (101, 7)], sell_orders := [(100, -5), (98, -3)] } 0 :=
  ⟨by decide,
    (c5_book_walk "KELP" (201/2) 50
      { buy_orders := [(99, 5), (101, 7)], sell_orders := [(100, -5), (98, -3)] } 0
      (by decide)).1⟩

/-! Claim C1: position-limit safety of all four order-generation variants. -/

/-- C1: for every starting position inside `[-L, L]` and every book
following the sign conventions, the orders emitted in one tick for a
product — by the book-walk buy and sell loops, by the z-score threshold
variant, and by the intrinsic-value short variant (with `L` the configured
`vr_max_short`) — keep the running position inside `[-L, L]` after every
order. -/
theorem c1_position_limit_safety :
    (∀ (product : String) (F : ℚ) (L : ℤ) (depth : OrderDepth) (pos : ℤ),
      (∀ pv ∈ depth.sell_orders, pv.2 ≤ 0) →
      (∀ pv ∈ depth.buy_orders, 0 ≤ pv.2) →
      -L ≤ pos → pos ≤ L →
      ∀ q ∈ runningPositions pos (bookWalkOrders product F L depth pos),
        -L ≤ q ∧ q ≤ L) ∧
    (∀ (product : String) (z threshold : ℚ)
      (best_bid best_ask max_trade_size L pos : ℤ),
      -L ≤ pos → pos ≤ L →
      ∀ q ∈ runningPositions pos
          (croissantOrders product z threshold best_bid best_ask max_trade_size L pos),
        -L ≤ q ∧ q ≤ L) ∧
    (∀ (product : String) (U : ℚ) (pos : ℤ) (os : List Order),
      -vr_max_short ≤ pos → pos ≤ vr_max_short →
      vr_short_itm_voucher product U pos = some os →
      ∀ q ∈ runningPositions pos os, -vr_max_short ≤ q ∧ q ≤ vr_max_short) := by
  refine ⟨?_, ?_, ?_⟩
  · intro product F L depth pos hask hbid h1 h2 q hq
    rw [bookWalk_eq_spec product F L depth pos hask] at hq
    simp only [specBookWalk] at hq
    rw [runningPositions_append] at hq
    obtain ⟨hballs, hbfin⟩ :=
      specBuySide_bounds product F L (sortAsc depth.sell_orders) pos h1 h2
    rcases List.mem_append.mp hq with hq | hq
    · exact hballs q hq
    · have hbid' : ∀ pv ∈ sortDesc depth.buy_orders, 0 ≤ pv.2 := fun pv hpv =>
        hbid pv ((List.perm_insertionSort _ _).mem_iff.mp hpv)
      exact specSellSide_bounds product F L (sortDesc depth.buy_orders)
        _ hbid' hbfin.1 hbfin.2 q hq
  · intro product z threshold best_bid best_ask max_trade_size L pos h1 h2 q hq
    unfold croissantOrders at hq
    by_cases hz : z > threshold
    · rw [if_pos hz] at hq
      by_cases hvol : min max_trade_size (L + pos) > 0
      · rw [if_pos hvol] at hq
        simp only [runningPositions, List.mem_singleton] at hq
        have hm := min_le_right max_trade_size (L + pos)
        omega
      · rw [if_neg hvol] at hq
        simp [runningPositions] at hq
    · rw [if_neg hz] at hq
      by_cases hz2 : z < -threshold
      · rw [if_pos hz2] at hq
        by_cases hvol : min max_trade_size (L - pos) > 0
        · rw [if_pos hvol] at hq
          simp only [runningPositions, List.mem_singleton] at hq
          have hm := min_le_right max_trade_size (L - pos)
          omega
        · rw [if_neg hvol] at hq
          simp [runningPositions] at hq
      · rw [if_neg hz2] at hq
        simp [runningPositions] at hq
  · intro product U pos os h1 h2 hos q hq
    simp only [vr_short_itm_voucher] at hos
    cases hps : parseStrike product with
    | none => rw [hps] at hos; exact absurd hos (by simp)
    | some strike =>
      rw [hps] at hos
      simp only [] at hos
      by_cases hU : U ≤ (strike : ℚ)
      · rw [if_pos hU] at hos
        obtain rfl : os = [] := (Option.some_inj.mp hos).symm
        simp [runningPositions] at hq
      · rw [if_neg hU] at hos
        by_cases hcap : vr_max_short + pos ≤ 0
        · rw [if_pos hcap] at hos
          obtain rfl : os = [] := (Option.some_inj.mp hos).symm
          simp [runningPositions] at hq
        · rw [if_neg hcap] at hos
          obtain rfl := (Option.some_inj.mp hos).symm
          simp only [runningPositions, List.mem_singleton] at hq
          simp only [vr_max_short] at hq h1 h2 hcap ⊢
          omega

/-- C1 witness: position-limit safety on a concrete book, a concrete
z-score signal, and a concrete voucher short. -/
theorem c1_position_limit_safety_witness :
    (∀ pv ∈ ({ buy_orders := [(103, 5)], sell_orders := [(98, -70)] } : OrderDepth).sell_orders,
      pv.2 ≤ 0) ∧
    (∀ q ∈ runningPositions 0
        (bookWalkOrders "KELP" 100 50 { buy_orders := [(103, 5)], sell_orders := [(98, -70)] } 0),
      -50 ≤ q ∧ q ≤ 50) ∧
    (∀ q ∈ runningPositions 245
        (croissantOrders "CROISSANTS" 2 (3/2) 100 102 10 250 245),
      -250 ≤ q ∧ q ≤ 250) ∧
    (vr_short_itm_voucher "VOLCANIC_ROCK_VOUCHER_10500" 10600 (-195) =
      some [{ symbol := "VOLCANIC_ROCK_VOUCHER_10500", price := 95, quantity := -5 }] ∧
      ∀ q ∈ runningPositions (-195)
          [{ symbol := "VOLCANIC_ROCK_VOUCHER_10500", price := 95, quantity := -5 }],
        -vr_max_short ≤ q ∧ q ≤ vr_max_short) := by
  have hparse : parseStrike "VOLCANIC_ROCK_VOUCHER_10500" = some 10500 := by decide
  have hvr : vr_short_itm_voucher "VOLCANIC_ROCK_VOUCHER_10500" 10600 (-195) =
      some [{ symbol := "VOLCANIC_ROCK_VOUCHER_10500", price := 95, quantity := -5 }] := by
    simp only [vr_short_itm_voucher, hparse]
    norm_num [pyInt, vr_max_short]
  refine ⟨by decide, ?_, ?_, hvr, ?_⟩
  · exact c1_position_limit_safety.1 "KELP" 100 50
      { buy_orders := [(103, 5)], sell_orders := [(98, -70)] } 0
      (by decide) (by decide) (by decide) (by decide)
  · exact c1_position_limit_safety.2.1 "CROISSANTS" 2 (3/2) 100 102 10 250 245
      (by decide) (by decide)
  · exact c1_position_limit_safety.2.2 "VOLCANIC_ROCK_VOUCHER_10500" 10600 (-195)
      [{ symbol := "VOLCANIC_ROCK_VOUCHER_10500", price := 95, quantity := -5 }]
      (by decide) (by decide) hvr

/-! Claim C6: composite fair value. -/

/-- Test for a component blocking the composite valuation: its book is
missing from the snapshot or one of its sides is empty. -/
def compUnavailable (depths : List (String × OrderDepth)) (comp : String) : Bool :=
  match lookupKey comp depths with
  | none => true
  | some d => d.buy_orders.isEmpty || d.sell_orders.isEmpty

lemma lookupKey_mem {α : Type} {k : String} {v : α} :
    ∀ {l : List (String × α)}, lookupKey k l = some v → (k, v) ∈ l := by
  intro l
  induction l with
  | nil => intro h; exact absurd h (by simp [lookupKey])
  | cons kv rest ih =>
    intro h
    obtain ⟨k', v'⟩ := kv
    by_cases hk : k' = k
    · subst hk
      rw [lookupKey, if_pos rfl] at h
      rw [Option.some_inj.mp h] at *
      exact List.mem_cons_self _ _
    · rw [lookupKey, if_neg hk] at h
      exact List.mem_cons_of_mem _ (ih h)

lemma bidVWAP_eq_sideVWAP (side : List (ℤ × ℤ))
    (h : ∀ pv ∈ side, 0 ≤ pv.2) : bidVWAP side = sideVWAP side := by
  have h1 : side.map (fun pv => (pv.1 : ℚ) * (pv.2 : ℚ)) =
      side.map (fun pv => (pv.1 : ℚ) * |(pv.2 : ℚ)|) :=
    List.map_congr_left fun pv hpv => by
      rw [abs_of_nonneg (by exact_mod_cast h pv hpv)]
  have h2 : side.map (fun pv => ((pv.2 : ℚ))) =
      side.map (fun pv => |(pv.2 : ℚ)|) :=
    List.map_congr_left fun pv hpv => by
      rw [abs_of_nonneg (by exact_mod_cast h pv hpv)]
  rw [bidVWAP, sideVWAP, h1, h2]

lemma cfv_spec (depths : List (String × OrderDepth))
    (hbid : ∀ e ∈ depths, ∀ pv ∈ (e.2 : OrderDepth).buy_orders, 0 ≤ pv.2) :
    ∀ (comps : List (String × ℤ)) (total : ℚ),
      ((∃ cq ∈ comps, compUnavailable depths cq.1 = true) →
        calculate_fair_value depths total comps = none) ∧
      ((∀ cq ∈ comps, compUnavailable depths cq.1 = false) →
        calculate_fair_value depths total comps =
          some (total + specCompositeFV depths comps)) := by
  intro comps
  induction comps with
  | nil =>
    intro total
    constructor
    · rintro ⟨cq, hcq, _⟩
      exact absurd hcq (List.not_mem_nil _)
    · intro _
      simp [calculate_fair_value, specCompositeFV]
  | cons cq rest ih =>
    intro total
    obtain ⟨comp, qty⟩ := cq
    cases hl : lookupKey comp depths with
    | none =>
      constructor
      · intro _
        simp [calculate_fair_value, hl]
      · intro hall
        have := hall (comp, qty) (List.mem_cons_self _ _)
        rw [compUnavailable, hl] at this
        exact absurd this (by simp)
    | some d =>
      by_cases hempty : d.buy_orders = [] ∨ d.sell_orders = []
      · constructor
        · intro _
          simp [calculate_fair_value, hl, hempty]
        · intro hall
          have := hall (comp, qty) (List.mem_cons_self _ _)
          rw [compUnavailable, hl] at this
          rcases hempty with he | he <;>
            simp [he, List.isEmpty_iff] at this
      · have hstep : calculate_fair_value depths total ((comp, qty) :: rest) =
            calculate_fair_value depths
              (total + (qty : ℚ) * (bidVWAP d.buy_orders + askVWAP d.sell_orders) / 2)
              rest := by
          simp [calculate_fair_value, hl, hempty]
        constructor
        · rintro ⟨cq', hmem, hbad⟩
          rcases List.mem_cons.mp hmem with rfl | hmem'
          · rw [compUnavailable, hl] at hbad
            rcases not_or.mp hempty with ⟨he1, he2⟩
            simp [List.isEmpty_iff, he1, he2] at hbad
          · rw [hstep]
            exact (ih _).1 ⟨cq', hmem', hbad⟩
        · intro hall
          have hrest : ∀ cq ∈ rest, compUnavailable depths cq.1 = false :=
            fun cq hcq => hall cq (List.mem_cons_of_mem _ hcq)
          rw [hstep, (ih _).2 hrest]
          have hmemd := lookupKey_mem hl
          have hb : bidVWAP d.buy_orders = sideVWAP d.buy_orders :=
            bidVWAP_eq_sideVWAP _ (hbid (comp, d) hmemd)
          have ha : askVWAP d.sell_orders = sideVWAP d.sell_orders := rfl
          simp only [specCompositeFV, List.map_cons, List.sum_cons, hl, Option.getD_some]
          rw [hb, ha, add_assoc]

/-- C6: the composite valuation returns `None` exactly when some required
component's book is missing or one-sided, and otherwise returns
`Σ qᵢ * (bid_vwapᵢ + ask_vwapᵢ)/2` with the VWAPs of the spec's glossary
(bid volumes following the positive sign convention). -/
theorem c6_composite_fair_value (depths : List (String × OrderDepth))
    (comps : List (String × ℤ))
    (hbid : ∀ e ∈ depths, ∀ pv ∈ (e.2 : OrderDepth).buy_orders, 0 ≤ pv.2) :
    (calculate_fair_value depths 0 comps = none ↔
      ∃ cq ∈ comps, compUnavailable depths cq.1 = true) ∧
    ((∀ cq ∈ comps, compUnavailable depths cq.1 = false) →
      calculate_fair_value depths 0 comps = some (specCompositeFV depths comps)) := by
  have h := cfv_spec depths hbid comps 0
  constructor
  · constructor
    · intro hnone
      by_contra hne
      push_neg at hne
      have hall : ∀ cq ∈ comps, compUnavailable depths cq.1 = false := by
        intro cq hcq
        have := hne cq hcq
        revert this
        cases compUnavailable depths cq.1 <;> simp
      rw [h.2 hall] at hnone
      exact Option.some_ne_none _ hnone
    · exact h.1
  · intro hall
    rw [h.2 hall, zero_add]

/-- C6 witness: the valuation theorem applied to a concrete two-component
basket, with the resulting value evaluated. -/
theorem c6_composite_fair_value_witness :
    (∀ e ∈ [("CROISSANTS", ({ buy_orders := [(10, 4)], sell_orders := [(12, -4)] } : OrderDepth)),
            ("JAMS", ({ buy_orders := [(5, 2)], sell_orders := [(7, -2)] } : OrderDepth))],
      ∀ pv ∈ (e.2 : OrderDepth).buy_orders, 0 ≤ pv.2) ∧
    calculate_fair_value
        [("CROISSANTS", { buy_orders := [(10, 4)], sell_orders := [(12, -4)] }),
         ("JAMS", { buy_orders := [(5, 2)], sell_orders := [(7, -2)] })] 0
        [("CROISSANTS", 6), ("JAMS", 3)] =
      some (specCompositeFV
        [("CROISSANTS", { buy_orders := [(10, 4)], sell_orders := [(12, -4)] }),
         ("JAMS", { buy_orders := [(5, 2)], sell_orders := [(7, -2)] })]
        [("CROISSANTS", 6), ("JAMS", 3)]) := by
  constructor
  · decide
  · exact (c6_composite_fair_value _ _ (by decide)).2 (by decide)

/-! Claim C7: z-score neutrality and definition. -/

/-- C7: the z-score is exactly 0 when the rolling window holds fewer than
100 observations and when the full window's sample variance (hence its
standard deviation) is 0; otherwise it is `(v − mean) / stdev` with the
sample standard deviation `fsqrt` of the exactly-computed sample variance,
for any square root satisfying `fsqrt x = 0 ↔ x = 0`. -/
theorem c7_z_score (fsqrt : ℚ → ℚ) (hist : List ℚ) (v : ℚ)
    (hsq : ∀ x, fsqrt x = 0 ↔ x = 0) :
    calculate_z_score fsqrt hist v =
      if hist.length < 100 then 0
      else if sampleVariance hist = 0 then 0
      else (v - listMean hist) / fsqrt (sampleVariance hist) := by
  simp only [calculate_z_score]
  by_cases hlen : hist.length < 100
  · rw [if_pos hlen, if_pos hlen]
  · rw [if_neg hlen, if_neg hlen]
    have h1 : hist.length > 1 := by omega
    rw [if_pos h1]
    by_cases hvar : sampleVariance hist = 0
    · rw [if_pos hvar]
      have h0 : fsqrt (sampleVariance hist) = 0 := (hsq _).mpr hvar
      simp [h0]
    · rw [if_neg hvar]
      have h0 : fsqrt (sampleVariance hist) ≠ 0 := fun h => hvar ((hsq _).mp h)
      simp [h0]

/-- C7 witness: the z-score theorem applied at the identity square root and
a full flat window, where the result is neutral. -/
theorem c7_z_score_witness :
    (∀ x : ℚ, (fun x : ℚ => x) x = 0 ↔ x = 0) ∧
    calculate_z_score (fun x : ℚ => x) (List.replicate 100 5) 7 = 0 := by
  refine ⟨fun x => Iff.rfl, ?_⟩
  have hmean : listMean (List.replicate 100 (5 : ℚ)) = 5 := by
    rw [listMean, List.sum_replicate, List.length_replicate, nsmul_eq_mul]
    norm_num
  have hvar : sampleVariance (List.replicate 100 (5 : ℚ)) = 0 := by
    rw [sampleVariance, List.map_replicate, hmean]
    simp
  rw [c7_z_score (fun x : ℚ => x) (List.replicate 100 5) 7 (fun x => Iff.rfl),
    if_neg (by rw [List.length_replicate]; omega), if_pos hvar]

/-! Claim C8: intrinsic-value short. -/

/-- C8: the intrinsic-value short emits nothing when the underlying fair
price is at or below the parsed strike or when the short capacity
`vr_max_short + pos` is non-positive; otherwise it emits exactly one sell
order of `min(10, capacity)` units priced `⌊(U − K) · 0.95⌋`; in
particular, with underlying 10600, strike 10500 and position 0, one order
of quantity −10 at price 95. -/
theorem c8_intrinsic_short :
    (∀ (product : String) (strike : ℤ) (U : ℚ) (pos : ℤ),
      parseStrike product = some strike →
      ((U ≤ (strike : ℚ) → vr_short_itm_voucher product U pos = some []) ∧
       (vr_max_short + pos ≤ 0 → vr_short_itm_voucher product U pos = some []) ∧
       ((strike : ℚ) < U → 0 < vr_max_short + pos →
         vr_short_itm_voucher product U pos =
           some [{ symbol := product,
                   price := ⌊(U - (strike : ℚ)) * (19/20)⌋,
                   quantity := -(min 10 (vr_max_short + pos)) }]))) ∧
    vr_short_itm_voucher "VOLCANIC_ROCK_VOUCHER_10500" 10600 0 =
      some [{ symbol := "VOLCANIC_ROCK_VOUCHER_10500", price := 95,
              quantity := -10 }] := by
  constructor
  · intro product strike U pos hparse
    refine ⟨?_, ?_, ?_⟩
    · intro hU
      simp [vr_short_itm_voucher, hparse, hU]
    · intro hcap
      by_cases hU : U ≤ (strike : ℚ)
      · simp [vr_short_itm_voucher, hparse, hU]
      · simp [vr_short_itm_voucher, hparse, hU, hcap]
    · intro hU hcap
      have hU' : ¬ U ≤ (strike : ℚ) := not_le.mpr hU
      have hcap' : ¬ (vr_max_short + pos ≤ 0) := not_le.mpr hcap
      have hq0 : (0 : ℚ) ≤ (U - (strike : ℚ)) * (19/20) :=
        mul_nonneg (sub_nonneg.mpr (le_of_lt hU)) (by norm_num)
      simp only [vr_short_itm_voucher, hparse, if_neg hU', if_neg hcap',
        pyInt, if_pos hq0]
  · have hparse : parseStrike "VOLCANIC_ROCK_VOUCHER_10500" = some 10500 := by decide
    simp only [vr_short_itm_voucher, hparse]
    norm_num [pyInt, vr_max_short]

/-- C8 witness: the intrinsic-short theorem applied to a concrete
in-the-money voucher. -/
theorem c8_intrinsic_short_witness :
    parseStrike "VOLCANIC_ROCK_VOUCHER_10000" = some 10000 ∧
    ((10000 : ℤ) : ℚ) < 10500 ∧ (0 : ℤ) < vr_max_short + 0 ∧
    vr_short_itm_voucher "VOLCANIC_ROCK_VOUCHER_10000" 10500 0 =
      some [{ symbol := "VOLCANIC_ROCK_VOUCHER_10000",
              price := ⌊((10500 : ℚ) - ((10000 : ℤ) : ℚ)) * (19/20)⌋,
              quantity := -(min 10 (vr_max_short + 0)) }] := by
  refine ⟨by decide, by norm_num, by decide, ?_⟩
  exact ((c8_intrinsic_short.1 "VOLCANIC_ROCK_VOUCHER_10000" 10000 10500 0
    (by decide)).2.2 (by norm_num) (by decide))

/-! Claim C10: stale-underlying fallback for vouchers. -/

/-- C10: when the `VOLCANIC_ROCK` book is absent or one-sided the stored
underlying fair price and its rolling window are left unchanged; a fresh
engine stores 10500; and against the retained fresh value every voucher
whose parsed strike is strictly below 10500 receives exactly one short
order (for any position with remaining short capacity, in particular the
zero position of a first tick). -/
theorem c10_stale_underlying :
    (∀ (dep : Option OrderDepth) (pr : ℚ) (lps : List ℚ),
      (dep = none ∨ ∃ d, dep = some d ∧ (d.buy_orders = [] ∨ d.sell_orders = [])) →
      vr_update_market_data dep pr lps = (pr, lps)) ∧
    r3Init.vr_price = 10500 ∧
    (∀ (product : String) (strike : ℤ) (pos : ℤ),
      parseStrike product = some strike → (strike : ℚ) < 10500 →
      -vr_max_short < pos →
      vr_short_itm_voucher product r3Init.vr_price pos =
        some [{ symbol := product,
                price := ⌊((10500 : ℚ) - (strike : ℚ)) * (19/20)⌋,
                quantity := -(min 10 (vr_max_short + pos)) }]) := by
  refine ⟨?_, rfl, ?_⟩
  · intro dep pr lps h
    rcases h with rfl | ⟨d, rfl, hempty⟩
    · rfl
    · have : ¬(d.buy_orders ≠ [] ∧ d.sell_orders ≠ []) := by
        rcases hempty with he | he <;> simp [he]
      simp [vr_update_market_data, this]
  · intro product strike pos hparse hK hpos
    have hU' : ¬ ((10500 : ℚ) ≤ (strike : ℚ)) := not_le.mpr hK
    have hcap' : ¬ (vr_max_short + pos ≤ 0) := by
      simp only [vr_max_short] at hpos ⊢
      omega
    have hq0 : (0 : ℚ) ≤ ((10500 : ℚ) - (strike : ℚ)) * (19/20) :=
      mul_nonneg (sub_nonneg.mpr (le_of_lt hK)) (by norm_num)
    have hpr : r3Init.vr_price = (10500 : ℚ) := rfl
    simp only [vr_short_itm_voucher, hparse, hpr, if_neg hU', if_neg hcap',
      pyInt, if_pos hq0]

/-- C10 witness: the stale-underlying theorem applied to a one-sided
underlying book and a concrete in-the-money voucher at position zero. -/
theorem c10_stale_underlying_witness :
    vr_update_market_data
        (some { buy_orders := [], sell_orders := [(10400, -3)] }) 10500 [] =
      (10500, []) ∧
    vr_short_itm_voucher "VOLCANIC_ROCK_VOUCHER_10000" r3Init.vr_price 0 =
      some [{ symbol := "VOLCANIC_ROCK_VOUCHER_10000",
              price := ⌊((10500 : ℚ) - ((10000 : ℤ) : ℚ)) * (19/20)⌋,
              quantity := -(min 10 (vr_max_short + 0)) }] := by
  constructor
  · exact c10_stale_underlying.1 _ 10500 []
      (Or.inr ⟨_, rfl, Or.inl rfl⟩)
  · exact c10_stale_underlying.2.2 "VOLCANIC_ROCK_VOUCHER_10000" 10000 0
      (by decide) (by norm_num) (by decide)

/-! Claim C9: adaptive-buffer maintenance. -/

lemma lookupKey_setKey_self {α : Type} (k : String) (v : α) :
    ∀ l : List (String × α), lookupKey k (setKey k v l) = some v := by
  intro l
  induction l with
  | nil => simp [setKey, lookupKey]
  | cons kv rest ih =>
    obtain ⟨k', v'⟩ := kv
    by_cases hk : k' = k
    · simp [setKey, lookupKey, hk]
    · simp [setKey, lookupKey, hk, ih]

/-- Neither the dynamic parameters nor the spread history are touched by
ROUND-2's per-product step. -/
lemma round2_step_preserves (fsqrt : ℚ → ℚ) (st : TradingState TD2)
    (acc : List (String × List Order) × R2State) (product : String) :
    (round2_step fsqrt st acc product).2.dynamic_params = acc.2.dynamic_params ∧
    (round2_step fsqrt st acc product).2.trader_data.spread_history =
      acc.2.trader_data.spread_history := by
  obtain ⟨result, s⟩ := acc
  cases hdep : lookupKey product st.order_depths with
  | none => simp [round2_step, hdep]
  | some depth =>
    cases hlim : lookupKey product pbPositionLimits with
    | none => simp [round2_step, hdep, hlim]
    | some L =>
      by_cases h1 : depth.buy_orders = [] ∨ depth.sell_orders = []
      · simp [round2_step, hdep, hlim, h1]
      · by_cases h2 : product = "RAINFOREST_RESIN" ∨ product = "KELP"
        · simp [round2_step, hdep, hlim, h1, h2]
        · by_cases h3 : product = "CROISSANTS"
          · subst h3
            simp [round2_step, hdep, hlim, h1, h2]
          · simp [round2_step, hdep, hlim, h1, h2, h3]

lemma round2_fold_preserves (fsqrt : ℚ → ℚ) (st : TradingState TD2) :
    ∀ (products : List String) (acc : List (String × List Order) × R2State),
      (products.foldl (round2_step fsqrt st) acc).2.dynamic_params =
        acc.2.dynamic_params ∧
      (products.foldl (round2_step fsqrt st) acc).2.trader_data.spread_history =
        acc.2.trader_data.spread_history := by
  intro products
  induction products with
  | nil => intro acc; exact ⟨rfl, rfl⟩
  | cons p rest ih =>
    intro acc
    rw [List.foldl_cons]
    obtain ⟨ha, hb⟩ := ih (round2_step fsqrt st acc p)
    obtain ⟨hc, hd⟩ := round2_step_preserves fsqrt st acc p
    exact ⟨ha.trans hc, hb.trans hd⟩

/-- C9 counterexample: a tick whose snapshot holds a two-sided
PICNIC_BASKET1 book (spread 2) leaves the basket's spread history empty —
`update_dynamic_buffers` is never invoked by `run`, so nothing is appended
and no buffer is recomputed or persisted. -/
theorem c9_counterexample :
    lookupKey "PICNIC_BASKET1"
        ((round2_run (fun _ => 0)
          { timestamp := 0,
            order_depths :=
              [("PICNIC_BASKET1", { buy_orders := [(100, 5)], sell_orders := [(102, -5)] })],
            position := [],
            traderData := Blob.empty } r2Init).2.2.2.trader_data.spread_history) =
      some [] ∧
    (some ([] : List ℚ) : Option (List ℚ)) ≠ some [2] := by
  constructor
  · have h1 : (round2_run (fun _ => 0)
        { timestamp := 0,
          order_depths :=
            [("PICNIC_BASKET1", { buy_orders := [(100, 5)], sell_orders := [(102, -5)] })],
          position := [],
          traderData := Blob.empty } r2Init).2.2.2.trader_data.spread_history =
        (List.foldl (round2_step (fun _ => 0)
          { timestamp := 0,
            order_depths :=
              [("PICNIC_BASKET1", { buy_orders := [(100, 5)], sell_orders := [(102, -5)] })],
            position := [],
            traderData := Blob.empty }) ([], r2Init)
          ["PICNIC_BASKET1"]).2.trader_data.spread_history := rfl
    rw [h1, (round2_fold_preserves _ _ _ _).2]
    decide
  · decide

/-- C9 amended: `update_dynamic_buffers` does append the spread to the
product's 20-bounded FIFO history and, once the history holds at least 5
observations, recomputes `current_buffer = clamp(median · multiplier,
min_buffer, max_buffer)` (keeping the prior parameters below 5
observations) — but ROUND-2's per-tick `run` never invokes it: every tick
leaves the spread histories and dynamic parameters unchanged, and the
serialized blob carries no buffer field at all. -/
theorem c9_adaptive_buffer :
    (∀ (s : R2State) (product : String) (spread : ℚ)
      (history : List ℚ) (params : DynParams),
      lookupKey product s.trader_data.spread_history = some history →
      lookupKey product s.dynamic_params = some params →
      history.length ≤ 20 →
      ∃ s', update_dynamic_buffers product spread s = some s' ∧
        lookupKey product s'.trader_data.spread_history =
          some ((history ++ [spread]).drop (history.length + 1 - 20)) ∧
        ((history ++ [spread]).drop (history.length + 1 - 20)).length ≤ 20 ∧
        (5 ≤ ((history ++ [spread]).drop (history.length + 1 - 20)).length →
          lookupKey product s'.dynamic_params =
            some { params with
                   current_buffer := max params.min_buffer (min params.max_buffer
                     (listMedian ((history ++ [spread]).drop (history.length + 1 - 20)) *
                       params.buffer_multiplier)) }) ∧
        (((history ++ [spread]).drop (history.length + 1 - 20)).length < 5 →
          s'.dynamic_params = s.dynamic_params)) ∧
    (∀ (fsqrt : ℚ → ℚ) (st : TradingState TD2) (s0 : R2State),
      (round2_run fsqrt st s0).2.2.2.dynamic_params = s0.dynamic_params ∧
      (round2_run fsqrt st s0).2.2.2.trader_data.spread_history =
        (round2Restore s0.trader_data st.traderData).spread_history ∧
      (round2_run fsqrt st s0).2.2.1 =
        Blob.valid (round2_run fsqrt st s0).2.2.2.trader_data) := by
  constructor
  · intro s product spread history params hhist hparams hlen
    have hdrop : (if (history ++ [spread]).length > 20
          then (history ++ [spread]).drop 1 else (history ++ [spread])) =
        (history ++ [spread]).drop (history.length + 1 - 20) := by
      rw [List.length_append, List.length_singleton]
      by_cases h20 : history.length + 1 > 20
      · rw [if_pos h20]
        have : history.length + 1 - 20 = 1 := by omega
        rw [this]
      · rw [if_neg h20]
        have : history.length + 1 - 20 = 0 := by omega
        rw [this, List.drop_zero]
    have hlen2 : ((history ++ [spread]).drop (history.length + 1 - 20)).length ≤ 20 := by
      rw [List.length_drop, List.length_append, List.length_singleton]
      omega
    simp only [update_dynamic_buffers, hhist, hdrop]
    by_cases h5 : 5 ≤ ((history ++ [spread]).drop (history.length + 1 - 20)).length
    · rw [if_pos h5]
      simp only [hparams]
      refine ⟨_, rfl, ?_, hlen2, fun _ => ?_, fun hlt => absurd h5 (by omega)⟩
      · simp only [lookupKey_setKey_self]
      · simp only [lookupKey_setKey_self]
    · rw [if_neg h5]
      refine ⟨_, rfl, ?_, hlen2, fun hge => absurd hge h5, fun _ => rfl⟩
      simp only [lookupKey_setKey_self]
  · intro fsqrt st s0
    have hfold := round2_fold_preserves fsqrt st (st.order_depths.map Prod.fst)
      ([], { s0 with trader_data := round2Restore s0.trader_data st.traderData })
    exact ⟨hfold.1, hfold.2, rfl⟩

/-- C9 witness: the adaptive-buffer theorem applied to a concrete state
whose PICNIC_BASKET1 spread history holds four observations, so the fifth
append triggers the clamp recomputation. -/
theorem c9_adaptive_buffer_witness :
    lookupKey "PICNIC_BASKET1"
        ({ r2Init with trader_data :=
            { r2InitTD with spread_history :=
                [("PICNIC_BASKET1", [2, 3, 2, 3]), ("PICNIC_BASKET2", [])] } } :
          R2State).trader_data.spread_history = some [2, 3, 2, 3] ∧
    ∃ s', update_dynamic_buffers "PICNIC_BASKET1" 4
        { r2Init with trader_data :=
            { r2InitTD with spread_history :=
                [("PICNIC_BASKET1", [2, 3, 2, 3]), ("PICNIC_BASKET2", [])] } } = some s' ∧
      lookupKey "PICNIC_BASKET1" s'.trader_data.spread_history =
        some (([2, 3, 2, 3] ++ [4]).drop (([2, 3, 2, 3] : List ℚ).length + 1 - 20)) := by
  constructor
  · rfl
  · obtain ⟨s', hupd, hhist, -, -, -⟩ :=
      c9_adaptive_buffer.1
        { r2Init with trader_data :=
            { r2InitTD with spread_history :=
                [("PICNIC_BASKET1", [2, 3, 2, 3]), ("PICNIC_BASKET2", [])] } }
        "PICNIC_BASKET1" 4 [2, 3, 2, 3]
        { buffer_multiplier := 22/10, min_buffer := 2, max_buffer := 10,
          current_buffer := 3 }
        rfl rfl (by decide)
    exact ⟨s', hupd, hhist⟩

end Prosperity
